import Mathlib

/-!
Verification development for the KSG mutual-information estimators of
`src/bmi/estimators/ksg.py`.

The Python module is shallowly embedded over exact rationals:

* point clouds are `Cloud = List (List ℚ)` (a list of rows);
* the external library functions (`scipy.special.digamma`, the sklearn
  distance metrics and `sklearn.preprocessing.StandardScaler`) are abstracted
  as function parameters `digamma : ℤ → ℚ`, `dx dy : Point → Point → ℚ` and
  `scaler : Cloud → Cloud`; concrete computable metrics (Chebyshev,
  Manhattan) are provided for evaluation (the Euclidean metric needs real
  square roots and therefore only appears through the abstract parameter);
* Python `dict` objects are embedded as insertion-ordered association lists
  (`PyDict`) with Python's insert-or-update-in-place semantics;
* exceptions are the explicit error type `Err`; a fallible mutating method
  returns the (possibly unchanged) object state together with `Option Err`,
  mirroring the fact that a Python `raise` leaves the object as it was;
* for the claims about aliasing (returning a `.copy()` of the fitted dict,
  not mutating the caller's arrays) a small heap model is used: `np.array`
  allocates a fresh cell, `StandardScaler(copy=False).fit_transform` writes
  in place, and `dict.copy()` allocates a fresh cell.
-/

/-- Error taxonomy of the module, following the names used in the spec.
In Python the first three are `ValueError`s distinguished by message,
`notFitted` is `EstimatorNotFittedException` and `unimplemented` is
`NotImplementedError`. -/
inductive Err where
  | invalidConfiguration
  | mismatchedLengths
  | insufficientSamples
  | notFitted
  | unimplemented
deriving DecidableEq, Repr

/-- A point of a point cloud: one row of the `n x d` matrix. -/
abbrev Point := List ℚ

/-- A point cloud: the list of its rows. -/
abbrev Cloud := List Point

/-- Python `max` over a list of integers (the empty case is unreachable for
validated neighborhood lists; Python would raise there). -/
def pyMax : List ℤ → ℤ
  | [] => 0
  | a :: t => t.foldl max a

/-- Python `min` over a list of integers (empty case unreachable as above). -/
def pyMin : List ℤ → ℤ
  | [] => 0
  | a :: t => t.foldl min a

/-- Embedding of `_cast_and_check_neighborhoods` (ksg.py lines 15-26):
rejects an empty sequence, rejects a sequence whose minimum is below 1,
and otherwise returns `list(neighborhoods)`, i.e. the input list itself. -/
def castAndCheckNeighborhoods (neighborhoods : List ℤ) : Except Err (List ℤ) :=
  if neighborhoods.length = 0 then .error .invalidConfiguration
  else if pyMin neighborhoods < 1 then .error .invalidConfiguration
  else .ok neighborhoods

/-- Insertion-ordered association list embedding a Python `dict`. -/
abbrev PyDict (α β : Type) := List (α × β)

/-- Python `d[k]` as an option: the value at the first entry with key `k`. -/
def PyDict.lookup {α β : Type} [DecidableEq α] : PyDict α β → α → Option β
  | [], _ => none
  | kv :: d, k => if kv.1 = k then some kv.2 else PyDict.lookup d k

/-- Python `k in d`. -/
def PyDict.containsKey {α β : Type} [DecidableEq α] (d : PyDict α β) (k : α) : Bool :=
  (d.lookup k).isSome

/-- Update the value stored at key `k` in place (used both for
`d[k] = v` on an existing key and for `d[k].append(t)`). -/
def PyDict.modify {α β : Type} [DecidableEq α] (d : PyDict α β) (k : α) (g : β → β) :
    PyDict α β :=
  d.map (fun kv => if kv.1 = k then (kv.1, g kv.2) else kv)

/-- Python `d[k] = v`: update in place when the key exists, append otherwise
(preserving insertion order, as Python dicts do). -/
def PyDict.insert {α β : Type} [DecidableEq α] (d : PyDict α β) (k : α) (v : β) :
    PyDict α β :=
  if d.containsKey k then d.modify k (fun _ => v) else d ++ [(k, v)]

/-- Python `d[k].append(t)` for a dict of lists (the key is present whenever
the source performs this operation). -/
def PyDict.appendAt {α γ : Type} [DecidableEq α] (d : PyDict α (List γ)) (k : α) (t : γ) :
    PyDict α (List γ) :=
  d.modify k (fun L => L ++ [t])

/-- Python `list(d.keys())`. -/
def PyDict.keys {α β : Type} (d : PyDict α β) : List α := d.map Prod.fst

/-- Python `list(d.values())`. -/
def PyDict.values {α β : Type} (d : PyDict α β) : List β := d.map Prod.snd

/-- Binary maximum on rationals, written with an explicit comparison so the
kernel can evaluate it on concrete inputs; `ratMax_eq_max` shows it agrees
with the lattice `max`.  It embeds Python `max(a, b)` and `np.maximum`. -/
def ratMax (a b : ℚ) : ℚ := if a ≤ b then b else a

/-- Absolute value on rationals with an explicit comparison (kernel
evaluable); used by the concrete metrics below. -/
def ratAbs (a : ℚ) : ℚ := if a < 0 then -a else a

/-- `ratMax` is the lattice maximum. -/
theorem ratMax_eq_max (a b : ℚ) : ratMax a b = max a b := by
  unfold ratMax
  by_cases h : a ≤ b
  · rw [if_pos h, max_eq_right h]
  · rw [if_neg h, max_eq_left (le_of_not_le h)]

/-- The first argument bounds `ratMax` from below. -/
theorem le_ratMax_left (a b : ℚ) : a ≤ ratMax a b := by
  unfold ratMax
  by_cases h : a ≤ b
  · rw [if_pos h]; exact h
  · rw [if_neg h]

/-- `np.mean` of a list of rationals (sum divided by length). -/
def listMean (l : List ℚ) : ℚ := l.sum / (l.length : ℚ)

/-- The Chebyshev (l-infinity) metric, one of the metrics accepted by the
estimators; used to instantiate the abstract metric parameters on concrete
inputs. -/
def chebyshevDist (p q : Point) : ℚ :=
  (List.zipWith (fun a b => ratAbs (a - b)) p q).foldl ratMax 0

/-- The Manhattan (l1) metric, another accepted metric. -/
def manhattanDist (p q : Point) : ℚ :=
  (List.zipWith (fun a b => ratAbs (a - b)) p q).sum

/-- Embedding of `metrics.pairwise_distances(x[None, index], x, metric=...)[0, :]`:
the vector of distances from row `index` of `m` to every row of `m`. -/
def distancesRow (d : Point → Point → ℚ) (m : Cloud) (index : Nat) : List ℚ :=
  m.map (d (m.getD index []))

/-- Insert index `i` into the already-sorted index list, after every index
whose key is less than or equal to the key of `i` (so that, like Python's
stable `sorted`, equal keys keep the original index order). -/
def stableInsertIdx (z : List ℚ) (i : Nat) : List Nat → List Nat
  | [] => [i]
  | j :: t => if z.getD j 0 ≤ z.getD i 0 then j :: stableInsertIdx z i t else i :: j :: t

/-- Embedding of `sorted(range(len(distances_z)), key=lambda i: distances_z[i])`:
the indices of `z` sorted by ascending value with a stable sort, matching
Python's `sorted` (ties keep the original index order). -/
def sortedIndices (z : List ℚ) : List Nat :=
  (List.range z.length).foldl (fun acc i => stableInsertIdx z i acc) []

/-- Number of entries of `ds` strictly below `r`, as an integer:
embedding of `(ds < r).sum()`. -/
def countStrictlyBelow (ds : List ℚ) (r : ℚ) : ℤ :=
  ((ds.filter (fun t => t < r)).length : ℤ)

/-- The quantity `digammas_per_point` accumulated by the inner loop of
`KSGEnsembleFirstEstimator.fit` (ksg.py lines 87-113) for point `index` and
neighborhood `k`: the source computes `distances_x`, `distances_y`,
`distances_z` and `closest_points` once per point and then loops over `k`;
this definition packages the same values per `(index, k)` pair. -/
def digammasPerPoint (digamma : ℤ → ℚ) (dx dy : Point → Point → ℚ)
    (x y : Cloud) (index : Nat) (k : ℤ) : ℚ :=
  let distances_x := distancesRow dx x index
  let distances_y := distancesRow dy y index
  let distances_z := List.zipWith ratMax distances_x distances_y
  let closest_points := sortedIndices distances_z
  let kth_neighbour := closest_points.getD k.toNat 0
  let distance := distances_z.getD kth_neighbour 0
  let n_x := countStrictlyBelow distances_x distance - 1
  let n_y := countStrictlyBelow distances_y distance - 1
  digamma (n_x + 1) + digamma (n_y + 1)

/-- The dict `digammas_dict` after the main loop of
`KSGEnsembleFirstEstimator.fit`: initialised as `{k: [] for k in neighborhoods}`
and then, for every point index and every `k` in the (possibly repetitive)
neighborhoods list, extended by `digammas_dict[k].append(...)`. -/
def digammasDict (digamma : ℤ → ℚ) (dx dy : Point → Point → ℚ)
    (x y : Cloud) (nbhds : List ℤ) : PyDict ℤ (List ℚ) :=
  let init : PyDict ℤ (List ℚ) := nbhds.foldl (fun d k => d.insert k []) []
  (List.range x.length).foldl
    (fun dd index =>
      nbhds.foldl
        (fun dd k => dd.appendAt k (digammasPerPoint digamma dx dy x y index k)) dd)
    init

/-- The final loop of `fit` (ksg.py lines 115-117): for each entry of
`digammas_dict`, store `max(0, digamma(k) - mean(digammas) + digamma(n))`
into the instance dict `self._mi_dict` (which is updated, not replaced). -/
def fitMiDict (digamma : ℤ → ℚ) (dx dy : Point → Point → ℚ)
    (x y : Cloud) (nbhds : List ℤ) (mi0 : PyDict ℤ ℚ) : PyDict ℤ ℚ :=
  let n_points := x.length
  (digammasDict digamma dx dy x y nbhds).foldl
    (fun m kd =>
      m.insert kd.1 (ratMax 0 (digamma kd.1 - listMean kd.2 + digamma (n_points : ℤ))))
    mi0

/-- The mutable state of a `KSGEnsembleFirstEstimator` instance:
its validated configuration together with `self._fitted` and
`self._mi_dict`. -/
structure KSGEnsembleFirstEstimator where
  neighborhoods : List ℤ
  standardize : Bool
  fitted : Bool
  mi_dict : PyDict ℤ ℚ
deriving DecidableEq, Repr

/-- Constructor of `KSGEnsembleFirstEstimator`: validates the neighborhoods
and starts with `_fitted = False` and an empty `_mi_dict`. -/
def KSGEnsembleFirstEstimator.new (neighborhoods : List ℤ) (standardize : Bool) :
    Except Err KSGEnsembleFirstEstimator :=
  (castAndCheckNeighborhoods neighborhoods).map
    (fun v => ⟨v, standardize, false, []⟩)

/-- Embedding of `KSGEnsembleFirstEstimator.fit` (ksg.py lines 69-119).
A raise is modelled by returning the unchanged state with `some` error,
mirroring the source where both raises happen before any mutation of
`self`.  On success the local `x`, `y` are rebound to their standardized
versions when `self._standardize` is set, `digammas_dict` is accumulated,
`self._mi_dict` is updated key by key and `self._fitted` is set. -/
def KSGEnsembleFirstEstimator.fit (digamma : ℤ → ℚ) (dx dy : Point → Point → ℚ)
    (scaler : Cloud → Cloud) (self : KSGEnsembleFirstEstimator) (x y : Cloud) :
    KSGEnsembleFirstEstimator × Option Err :=
  if x.length ≠ y.length then (self, some .mismatchedLengths)
  else if (x.length : ℤ) ≤ pyMax self.neighborhoods then (self, some .insufficientSamples)
  else
    let x := if self.standardize then scaler x else x
    let y := if self.standardize then scaler y else y
    ({ self with
        mi_dict := fitMiDict digamma dx dy x y self.neighborhoods self.mi_dict,
        fitted := true },
     none)

/-- Embedding of `KSGEnsembleFirstEstimator.get_predictions` (lines 121-124),
value-level rendition: the `.copy()` aspect is treated in the heap rendition
below; at the value level the method returns the current `_mi_dict`. -/
def KSGEnsembleFirstEstimator.get_predictions (self : KSGEnsembleFirstEstimator) :
    Except Err (PyDict ℤ ℚ) :=
  if self.fitted = false then .error .notFitted
  else .ok self.mi_dict

/-- Embedding of `KSGEnsembleFirstEstimator.estimate` (lines 126-129):
`self.fit(x, y)` followed by `np.mean(list(self.get_predictions().values()))`;
errors of either step propagate. -/
def KSGEnsembleFirstEstimator.estimate (digamma : ℤ → ℚ) (dx dy : Point → Point → ℚ)
    (scaler : Cloud → Cloud) (self : KSGEnsembleFirstEstimator) (x y : Cloud) :
    KSGEnsembleFirstEstimator × Except Err ℚ :=
  let fitRes := self.fit digamma dx dy scaler x y
  match fitRes.2 with
  | some e => (fitRes.1, .error e)
  | none =>
    match fitRes.1.get_predictions with
    | .error e => (fitRes.1, .error e)
    | .ok d => (fitRes.1, .ok (listMean d.values))

/-- A heap of mutable cells, used to model Python object aliasing where a
claim is about it (copies of arrays and dicts).  Addresses are indices. -/
abbrev Heap (α : Type) := List α

/-- Allocate a fresh cell holding `a`; returns the new heap and the address. -/
def Heap.alloc {α : Type} (h : Heap α) (a : α) : Heap α × Nat :=
  (h ++ [a], h.length)

/-- Read the cell at address `r` (out-of-range reads never occur along the
modelled executions). -/
def Heap.read {α : Type} [Inhabited α] (h : Heap α) (r : Nat) : α :=
  h.getD r default

/-- Overwrite the cell at address `r`. -/
def Heap.write {α : Type} (h : Heap α) (r : Nat) (a : α) : Heap α :=
  h.set r a

/-- Reference-semantics rendition of the state of a
`KSGEnsembleFirstEstimator` instance: as in the value-level rendition, but
`self._mi_dict` is a reference into a heap of dicts, so that the `.copy()`
in `get_predictions` and the in-place updates of `fit` are observable. -/
structure KSGEnsembleFirstEstimatorRef where
  neighborhoods : List ℤ
  standardize : Bool
  fitted : Bool
  mi_ref : Nat
deriving DecidableEq, Repr

/-- Heap-level constructor: validate the neighborhoods, then allocate the
fresh `self._mi_dict = dict()`. -/
def KSGEnsembleFirstEstimatorRef.new (dh : Heap (PyDict ℤ ℚ)) (neighborhoods : List ℤ)
    (standardize : Bool) : Heap (PyDict ℤ ℚ) × Except Err KSGEnsembleFirstEstimatorRef :=
  match castAndCheckNeighborhoods neighborhoods with
  | .error e => (dh, .error e)
  | .ok v =>
    let alloc := Heap.alloc dh ([] : PyDict ℤ ℚ)
    (alloc.1, .ok ⟨v, standardize, false, alloc.2⟩)

/-- Reference-semantics rendition of `KSGEnsembleFirstEstimator.fit`:
identical to the value-level `fit` except that the caller's arrays live in
the heap `ah` and are passed by reference, `x, y = np.array(x), np.array(y)`
allocates fresh copies, `StandardScaler(copy=False).fit_transform` writes the
standardized matrices in place over those copies, and the final per-key
updates go through the dict heap `dh` at `self.mi_ref`. -/
def KSGEnsembleFirstEstimatorRef.fit (digamma : ℤ → ℚ) (dx dy : Point → Point → ℚ)
    (scaler : Cloud → Cloud) (ah : Heap Cloud) (dh : Heap (PyDict ℤ ℚ))
    (self : KSGEnsembleFirstEstimatorRef) (xref yref : Nat) :
    Heap Cloud × Heap (PyDict ℤ ℚ) × KSGEnsembleFirstEstimatorRef × Option Err :=
  let x0 := ah.read xref
  let y0 := ah.read yref
  let ax := ah.alloc x0
  let ay := ax.1.alloc y0
  let ah := ay.1
  if x0.length ≠ y0.length then (ah, dh, self, some .mismatchedLengths)
  else if (x0.length : ℤ) ≤ pyMax self.neighborhoods then
    (ah, dh, self, some .insufficientSamples)
  else
    let ah := if self.standardize
      then (ah.write ax.2 (scaler x0)).write ay.2 (scaler y0) else ah
    let x := ah.read ax.2
    let y := ah.read ay.2
    let dh := dh.write self.mi_ref
      (fitMiDict digamma dx dy x y self.neighborhoods (dh.read self.mi_ref))
    (ah, dh, { self with fitted := true }, none)

/-- Reference-semantics rendition of `get_predictions`: raise when not
fitted, otherwise return (the address of) `self._mi_dict.copy()`, a freshly
allocated shallow copy. -/
def KSGEnsembleFirstEstimatorRef.get_predictions (dh : Heap (PyDict ℤ ℚ))
    (self : KSGEnsembleFirstEstimatorRef) : Heap (PyDict ℤ ℚ) × Except Err Nat :=
  if self.fitted = false then (dh, .error .notFitted)
  else
    let alloc := dh.alloc (dh.read self.mi_ref)
    (alloc.1, .ok alloc.2)

/-- The state of a `KSGEnsembleChebyshevEstimator` instance: validated
neighborhoods, the standardization flag and the data the internal
`NearestNeighbors` index was fitted on (if any). -/
structure KSGEnsembleChebyshevEstimator where
  neighborhoods : List ℤ
  standardize : Bool
  nn_data : Option Cloud
deriving DecidableEq, Repr

/-- Constructor of `KSGEnsembleChebyshevEstimator` (ksg.py lines 137-143):
validates the neighborhoods; the `NearestNeighbors` structure starts
unfitted. -/
def KSGEnsembleChebyshevEstimator.new (neighborhoods : List ℤ) (standardize : Bool) :
    Except Err KSGEnsembleChebyshevEstimator :=
  (castAndCheckNeighborhoods neighborhoods).map (fun v => ⟨v, standardize, none⟩)

/-- Embedding of `KSGEnsembleChebyshevEstimator.fit` (ksg.py lines 145-162),
with the caller's arrays held in the heap `ah` as above: only the length
check is performed (there is no `InsufficientSamples` check in this method),
then `np.array` copies, optional in-place standardization of the copies,
`z = np.hstack([x, y])` and fitting of the nearest-neighbor index on `z`.
The shape assertion of the source holds for rectangular inputs and is not
modelled. -/
def KSGEnsembleChebyshevEstimator.fit (scaler : Cloud → Cloud) (ah : Heap Cloud)
    (self : KSGEnsembleChebyshevEstimator) (xref yref : Nat) :
    Heap Cloud × KSGEnsembleChebyshevEstimator × Option Err :=
  let x0 := ah.read xref
  let y0 := ah.read yref
  let ax := ah.alloc x0
  let ay := ax.1.alloc y0
  let ah := ay.1
  if x0.length ≠ y0.length then (ah, self, some .mismatchedLengths)
  else
    let ah := if self.standardize
      then (ah.write ax.2 (scaler x0)).write ay.2 (scaler y0) else ah
    let x := ah.read ax.2
    let y := ah.read ay.2
    let z := List.zipWith (fun p q => p ++ q) x y
    (ah, { self with nn_data := some z }, none)

/-- Embedding of `KSGEnsembleChebyshevEstimator.predict` (ksg.py lines
164-170): the `neighborhoods` argument is defaulted from the instance or
validated, after which `NotImplementedError` is raised unconditionally. -/
def KSGEnsembleChebyshevEstimator.predict (self : KSGEnsembleChebyshevEstimator)
    (neighborhoods : Option (List ℤ)) : Except Err (PyDict ℤ ℚ) :=
  match neighborhoods with
  | none => .error .unimplemented
  | some s =>
    match castAndCheckNeighborhoods s with
    | .error e => .error e
    | .ok _ => .error .unimplemented

/-- Embedding of `KSGEnsembleChebyshevEstimator.estimate` (ksg.py lines
172-175): `self.fit(x, y)` then the mean of `self.predict().values()`;
errors of either step propagate. -/
def KSGEnsembleChebyshevEstimator.estimate (scaler : Cloud → Cloud) (ah : Heap Cloud)
    (self : KSGEnsembleChebyshevEstimator) (xref yref : Nat) :
    Heap Cloud × KSGEnsembleChebyshevEstimator × Except Err ℚ :=
  let fitRes := self.fit scaler ah xref yref
  match fitRes.2.2 with
  | some e => (fitRes.1, fitRes.2.1, .error e)
  | none =>
    match fitRes.2.1.predict none with
    | .error e => (fitRes.1, fitRes.2.1, .error e)
    | .ok d => (fitRes.1, fitRes.2.1, .ok (listMean d.values))

/-- The per-`(point, k)` digamma term as the spec sentence behind claim C1
words it: `n_x` is the number of points OTHER THAN `index` whose `distances_x`
entry is strictly below the joint radius (and `n_y` analogously).  This
coincides with `digammasPerPoint` exactly when the radius is positive. -/
def specDigammasPerPoint (digamma : ℤ → ℚ) (dx dy : Point → Point → ℚ)
    (x y : Cloud) (index : Nat) (k : ℤ) : ℚ :=
  let distances_x := distancesRow dx x index
  let distances_y := distancesRow dy y index
  let distances_z := List.zipWith ratMax distances_x distances_y
  let closest_points := sortedIndices distances_z
  let kth_neighbour := closest_points.getD k.toNat 0
  let distance := distances_z.getD kth_neighbour 0
  let n_x : ℤ :=
    (((List.range x.length).filter
      (fun j => j ≠ index ∧ distances_x.getD j 0 < distance)).length : ℤ)
  let n_y : ℤ :=
    (((List.range y.length).filter
      (fun j => j ≠ index ∧ distances_y.getD j 0 < distance)).length : ℤ)
  digamma (n_x + 1) + digamma (n_y + 1)

/-- The estimate the claim-C1 sentence predicts for neighborhood `k`:
`max(0, digamma(k) - mean over i of the spec per-point terms + digamma(n))`. -/
def specMIEstimate (digamma : ℤ → ℚ) (dx dy : Point → Point → ℚ)
    (x y : Cloud) (k : ℤ) : ℚ :=
  ratMax 0 (digamma k
    - listMean ((List.range x.length).map
        (fun i => specDigammasPerPoint digamma dx dy x y i k))
    + digamma (x.length : ℤ))

/-- The estimate the code actually produces for neighborhood `k`, written as
a direct formula (no dict accumulation): `max(0, digamma(k) - mean over i of
the code per-point terms + digamma(n))`.  It differs from `specMIEstimate`
only in using the code's `n_x` (count minus one) instead of the count over
points other than `i`. -/
def miEstimate (digamma : ℤ → ℚ) (dx dy : Point → Point → ℚ)
    (x y : Cloud) (k : ℤ) : ℚ :=
  ratMax 0 (digamma k
    - listMean ((List.range x.length).map
        (fun i => digammasPerPoint digamma dx dy x y i k))
    + digamma (x.length : ℤ))

/-- The keys of a Python dict successively assigned at the elements of `l`
(first-occurrence order, duplicates collapsed). -/
def firstOccurrences (l : List ℤ) : List ℤ :=
  l.foldl (fun acc k => if k ∈ acc then acc else acc ++ [k]) []

/-- Looking up the modified key applies the modification. -/
theorem PyDict.lookup_modify_self {α β : Type} [DecidableEq α]
    (d : PyDict α β) (k : α) (g : β → β) :
    (d.modify k g).lookup k = (d.lookup k).map g := by
  induction d with
  | nil => rfl
  | cons kv d ih =>
    by_cases h : kv.1 = k
    · simp [PyDict.modify, PyDict.lookup, h]
    · simpa [PyDict.modify, PyDict.lookup, h] using ih

/-- Looking up a different key ignores the modification. -/
theorem PyDict.lookup_modify_ne {α β : Type} [DecidableEq α]
    (d : PyDict α β) (k' k : α) (g : β → β) (hne : k' ≠ k) :
    (d.modify k' g).lookup k = d.lookup k := by
  induction d with
  | nil => rfl
  | cons kv d ih =>
    have hsym : k ≠ k' := fun he => hne he.symm
    simp only [PyDict.modify] at ih
    by_cases h : kv.1 = k'
    · have hk : kv.1 ≠ k := h ▸ hne
      simp [PyDict.modify, PyDict.lookup, h, hk, hne, hsym, ih]
    · by_cases h2 : kv.1 = k
      · simp [PyDict.modify, PyDict.lookup, h, h2, hne, hsym]
      · simp [PyDict.modify, PyDict.lookup, h, h2, hne, hsym, ih]

/-- Modification does not change the key list. -/
theorem PyDict.keys_modify {α β : Type} [DecidableEq α]
    (d : PyDict α β) (k : α) (g : β → β) :
    (d.modify k g).keys = d.keys := by
  induction d with
  | nil => rfl
  | cons kv d ih =>
    by_cases h : kv.1 = k <;> simp [PyDict.modify, PyDict.keys, h] <;>
      simpa [PyDict.modify, PyDict.keys] using ih

/-- Modifying an absent key is a no-op. -/
theorem PyDict.modify_of_not_mem {α β : Type} [DecidableEq α]
    (d : PyDict α β) (k : α) (g : β → β) (h : d.lookup k = none) :
    d.modify k g = d := by
  induction d with
  | nil => rfl
  | cons kv d ih =>
    by_cases hk : kv.1 = k
    · simp [PyDict.lookup, hk] at h
    · simp [PyDict.lookup, hk] at h
      simp [PyDict.modify, hk] at ih ⊢
      exact ih h

/-- Lookup distributes over append. -/
theorem PyDict.lookup_append {α β : Type} [DecidableEq α]
    (d e : PyDict α β) (k : α) :
    (d ++ e).lookup k = ((d.lookup k).or (e.lookup k)) := by
  induction d with
  | nil => simp [PyDict.lookup]
  | cons kv d ih =>
    by_cases h : kv.1 = k <;> simp [PyDict.lookup, h, ih]

/-- Looking up the inserted key finds the inserted value. -/
theorem PyDict.lookup_insert_self {α β : Type} [DecidableEq α]
    (d : PyDict α β) (k : α) (v : β) :
    (d.insert k v).lookup k = some v := by
  unfold PyDict.insert
  by_cases h : d.containsKey k
  · rw [if_pos h, PyDict.lookup_modify_self]
    unfold PyDict.containsKey at h
    cases hd : d.lookup k with
    | none => rw [hd] at h; simp at h
    | some w => simp
  · rw [if_neg h, PyDict.lookup_append]
    unfold PyDict.containsKey at h
    cases hd : d.lookup k with
    | none => simp [PyDict.lookup]
    | some w => rw [hd] at h; simp at h

/-- Looking up a different key ignores an insertion. -/
theorem PyDict.lookup_insert_ne {α β : Type} [DecidableEq α]
    (d : PyDict α β) (k' k : α) (v : β) (hne : k' ≠ k) :
    (d.insert k' v).lookup k = d.lookup k := by
  unfold PyDict.insert
  by_cases h : d.containsKey k'
  · rw [if_pos h, PyDict.lookup_modify_ne _ _ _ _ hne]
  · rw [if_neg h, PyDict.lookup_append]
    have : PyDict.lookup [(k', v)] k = none := by
      simp [PyDict.lookup, hne]
    rw [this]
    cases d.lookup k <;> rfl

/-- A key is contained exactly when it occurs in the key list. -/
theorem PyDict.containsKey_iff_mem_keys {α β : Type} [DecidableEq α]
    (d : PyDict α β) (k : α) :
    d.containsKey k = true ↔ k ∈ d.keys := by
  induction d with
  | nil => simp [PyDict.containsKey, PyDict.lookup, PyDict.keys]
  | cons kv d ih =>
    by_cases h : kv.1 = k
    · simp [PyDict.containsKey, PyDict.lookup, PyDict.keys, h]
    · simp only [PyDict.containsKey, PyDict.lookup, h, if_false, PyDict.keys,
        List.map_cons, List.mem_cons]
      rw [← PyDict.keys]
      constructor
      · intro hh
        exact Or.inr (ih.mp hh)
      · intro hh
        rcases hh with hh | hh
        · exact absurd hh.symm h
        · exact ih.mpr hh

/-- The key list after an insertion. -/
theorem PyDict.keys_insert {α β : Type} [DecidableEq α]
    (d : PyDict α β) (k : α) (v : β) :
    (d.insert k v).keys = if k ∈ d.keys then d.keys else d.keys ++ [k] := by
  unfold PyDict.insert
  by_cases h : d.containsKey k
  · rw [if_pos h, PyDict.keys_modify, if_pos ((PyDict.containsKey_iff_mem_keys d k).mp h)]
  · have hmem : k ∉ d.keys := fun hm =>
      h ((PyDict.containsKey_iff_mem_keys d k).mpr hm)
    rw [if_neg h, if_neg hmem]
    simp [PyDict.keys]

/-- Insertion preserves distinctness of keys. -/
theorem PyDict.nodup_keys_insert {α β : Type} [DecidableEq α]
    (d : PyDict α β) (k : α) (v : β) (h : d.keys.Nodup) :
    (d.insert k v).keys.Nodup := by
  rw [PyDict.keys_insert]
  by_cases hm : k ∈ d.keys
  · rwa [if_pos hm]
  · rw [if_neg hm]
    simp [List.nodup_append, h, List.Disjoint]
    intro a ha hak
    exact hm (hak ▸ ha)

/-- In a dict with distinct keys, every entry is found by lookup. -/
theorem PyDict.lookup_of_mem {α β : Type} [DecidableEq α]
    (d : PyDict α β) (kv : α × β) (hnd : d.keys.Nodup) (hm : kv ∈ d) :
    d.lookup kv.1 = some kv.2 := by
  induction d with
  | nil => cases hm
  | cons hd d ih =>
    have hcons : PyDict.keys (hd :: d) = hd.1 :: PyDict.keys d := rfl
    rw [hcons] at hnd
    have h0 := List.nodup_cons.mp hnd
    rcases List.mem_cons.mp hm with h | h
    · subst h
      simp [PyDict.lookup]
    · have hk : kv.1 ∈ PyDict.keys d := List.mem_map.mpr ⟨kv, h, rfl⟩
      have hne : hd.1 ≠ kv.1 := fun he => h0.1 (he ▸ hk)
      simp only [PyDict.lookup, hne, if_false]
      exact ih h0.2 h

/-- Lookup in a dict whose keys avoid `k` is `none`. -/
theorem PyDict.lookup_eq_none_of_not_mem_keys {α β : Type} [DecidableEq α]
    (d : PyDict α β) (k : α) (h : k ∉ PyDict.keys d) : d.lookup k = none := by
  induction d with
  | nil => rfl
  | cons kv d ih =>
    have hcons : PyDict.keys (kv :: d) = kv.1 :: PyDict.keys d := rfl
    rw [hcons] at h
    have h1 : kv.1 ≠ k := fun he => h (he ▸ List.mem_cons_self _ _)
    simp only [PyDict.lookup, h1, if_false]
    exact ih (fun hm => h (List.mem_cons_of_mem _ hm))

/-- Lookup after the dict-comprehension fold `{k: [] for k in nbhds}`
run on top of `d0`. -/
theorem lookup_foldl_insert_empty (nbhds : List ℤ) (d0 : PyDict ℤ (List ℚ)) (k : ℤ) :
    (nbhds.foldl (fun d k' => d.insert k' []) d0).lookup k
      = if k ∈ nbhds then some [] else d0.lookup k := by
  induction nbhds generalizing d0 with
  | nil => simp
  | cons a t ih =>
    simp only [List.foldl_cons]
    rw [ih]
    by_cases hkt : k ∈ t
    · simp [hkt]
    · by_cases hka : k = a
      · subst hka
        simp [hkt, PyDict.lookup_insert_self]
      · simp [hkt, hka,
          PyDict.lookup_insert_ne d0 a k [] (fun he => hka he.symm)]

/-- Keys after the dict-comprehension fold are the first occurrences. -/
theorem keys_foldl_insert (nbhds : List ℤ) (d0 : PyDict ℤ (List ℚ)) :
    PyDict.keys (nbhds.foldl (fun d k' => d.insert k' []) d0)
      = nbhds.foldl (fun acc k => if k ∈ acc then acc else acc ++ [k]) (PyDict.keys d0) := by
  induction nbhds generalizing d0 with
  | nil => rfl
  | cons a t ih =>
    simp only [List.foldl_cons]
    rw [ih, PyDict.keys_insert]

/-- The dict-comprehension fold yields distinct keys. -/
theorem nodup_keys_foldl_insert (nbhds : List ℤ) (d0 : PyDict ℤ (List ℚ))
    (h : (PyDict.keys d0).Nodup) :
    (PyDict.keys (nbhds.foldl (fun d k' => d.insert k' []) d0)).Nodup := by
  induction nbhds generalizing d0 with
  | nil => exact h
  | cons a t ih =>
    simp only [List.foldl_cons]
    exact ih _ (PyDict.nodup_keys_insert d0 a [] h)

/-- Appending per-point terms (the inner loop over the neighborhoods list at
one point) extends the entry at `k` by one copy of the term per occurrence of
`k` in the list. -/
theorem lookup_innerFold (nbhds : List ℤ) (f : ℤ → ℚ) (d : PyDict ℤ (List ℚ)) (k : ℤ) :
    (nbhds.foldl (fun d k' => d.appendAt k' (f k')) d).lookup k
      = (d.lookup k).map (fun L => L ++ List.replicate (nbhds.count k) (f k)) := by
  induction nbhds generalizing d with
  | nil => cases hd : d.lookup k <;> simp [hd]
  | cons a t ih =>
    simp only [List.foldl_cons]
    rw [ih]
    by_cases hka : a = k
    · subst hka
      unfold PyDict.appendAt
      rw [PyDict.lookup_modify_self, List.count_cons_self]
      cases hd : d.lookup a <;>
        simp [hd, List.replicate_succ, List.append_assoc]
    · unfold PyDict.appendAt
      rw [PyDict.lookup_modify_ne d a k _ hka, List.count_cons_of_ne (fun he => hka he.symm)]

/-- The inner loop does not change the key list. -/
theorem keys_innerFold (nbhds : List ℤ) (f : ℤ → ℚ) (d : PyDict ℤ (List ℚ)) :
    PyDict.keys (nbhds.foldl (fun d k' => d.appendAt k' (f k')) d) = PyDict.keys d := by
  induction nbhds generalizing d with
  | nil => rfl
  | cons a t ih =>
    simp only [List.foldl_cons]
    rw [ih]
    exact PyDict.keys_modify d a _

/-- Lookup after the outer loop over all point indices: the entry at `k`
collects, in point order, `count` copies of each per-point term. -/
theorem lookup_outerFold (I : List Nat) (nbhds : List ℤ) (F : Nat → ℤ → ℚ)
    (d0 : PyDict ℤ (List ℚ)) (k : ℤ) :
    (I.foldl (fun dd i => nbhds.foldl (fun d k' => d.appendAt k' (F i k')) dd) d0).lookup k
      = (d0.lookup k).map
          (fun L => L ++ I.flatMap (fun i => List.replicate (nbhds.count k) (F i k))) := by
  induction I generalizing d0 with
  | nil => cases hd : d0.lookup k <;> simp [hd]
  | cons i I ih =>
    simp only [List.foldl_cons]
    rw [ih, lookup_innerFold]
    cases hd : d0.lookup k <;> simp [hd, List.append_assoc]

/-- The outer loop does not change the key list either. -/
theorem keys_outerFold (I : List Nat) (nbhds : List ℤ) (F : Nat → ℤ → ℚ)
    (d0 : PyDict ℤ (List ℚ)) :
    PyDict.keys
        (I.foldl (fun dd i => nbhds.foldl (fun d k' => d.appendAt k' (F i k')) dd) d0)
      = PyDict.keys d0 := by
  induction I generalizing d0 with
  | nil => rfl
  | cons i I ih =>
    simp only [List.foldl_cons]
    rw [ih, keys_innerFold]

/-- The accumulated `digammas_dict` entry at a requested neighborhood `k`. -/
theorem digammasDict_lookup (digamma : ℤ → ℚ) (dx dy : Point → Point → ℚ)
    (x y : Cloud) (nbhds : List ℤ) (k : ℤ) (hk : k ∈ nbhds) :
    (digammasDict digamma dx dy x y nbhds).lookup k
      = some ((List.range x.length).flatMap
          (fun i => List.replicate (nbhds.count k)
            (digammasPerPoint digamma dx dy x y i k))) := by
  unfold digammasDict
  rw [lookup_outerFold, lookup_foldl_insert_empty]
  simp [hk]

/-- `digammas_dict` has one entry per distinct neighborhood, in
first-occurrence order. -/
theorem digammasDict_keys (digamma : ℤ → ℚ) (dx dy : Point → Point → ℚ)
    (x y : Cloud) (nbhds : List ℤ) :
    PyDict.keys (digammasDict digamma dx dy x y nbhds) = firstOccurrences nbhds := by
  unfold digammasDict firstOccurrences
  rw [keys_outerFold, keys_foldl_insert]
  rfl

/-- The keys of `digammas_dict` are distinct. -/
theorem digammasDict_keys_nodup (digamma : ℤ → ℚ) (dx dy : Point → Point → ℚ)
    (x y : Cloud) (nbhds : List ℤ) :
    (PyDict.keys (digammasDict digamma dx dy x y nbhds)).Nodup := by
  unfold digammasDict
  rw [keys_outerFold]
  exact nodup_keys_foldl_insert nbhds [] (by simp [PyDict.keys])

/-- Lookup is untouched by the final `self._mi_dict[k] = ...` fold at keys
that are not keys of the folded dict. -/
theorem lookup_foldl_insertPairs_notmem (dd : PyDict ℤ (List ℚ))
    (f : ℤ × List ℚ → ℚ) (m0 : PyDict ℤ ℚ) (k : ℤ) (hk : k ∉ PyDict.keys dd) :
    (dd.foldl (fun m kd => m.insert kd.1 (f kd)) m0).lookup k = m0.lookup k := by
  induction dd generalizing m0 with
  | nil => rfl
  | cons a t ih =>
    have hcons : PyDict.keys (a :: t) = a.1 :: PyDict.keys t := rfl
    rw [hcons] at hk
    have h1 : a.1 ≠ k := fun he => hk (he ▸ List.mem_cons_self _ _)
    simp only [List.foldl_cons]
    rw [ih _ (fun hm => hk (List.mem_cons_of_mem _ hm)),
      PyDict.lookup_insert_ne m0 a.1 k (f a) h1]

/-- The value stored by the final `self._mi_dict[k] = ...` fold at an entry
`(k, L)` of the folded dict (with distinct keys). -/
theorem lookup_foldl_insertPairs (dd : PyDict ℤ (List ℚ)) (f : ℤ × List ℚ → ℚ)
    (m0 : PyDict ℤ ℚ) (k : ℤ) (L : List ℚ)
    (hnd : (PyDict.keys dd).Nodup) (hL : dd.lookup k = some L) :
    (dd.foldl (fun m kd => m.insert kd.1 (f kd)) m0).lookup k = some (f (k, L)) := by
  induction dd generalizing m0 with
  | nil => cases hL
  | cons a t ih =>
    have hcons : PyDict.keys (a :: t) = a.1 :: PyDict.keys t := rfl
    rw [hcons] at hnd
    have h0 := List.nodup_cons.mp hnd
    simp only [List.foldl_cons]
    have hLcons : PyDict.lookup (a :: t) k
        = if a.1 = k then some a.2 else PyDict.lookup t k := rfl
    rw [hLcons] at hL
    by_cases hak : a.1 = k
    · subst hak
      rw [if_pos rfl] at hL
      have hLa : a.2 = L := Option.some.inj hL
      subst hLa
      rw [lookup_foldl_insertPairs_notmem t f _ a.1 h0.1,
        PyDict.lookup_insert_self]
    · rw [if_neg hak] at hL
      exact ih _ h0.2 hL

/-- `insert` commutes with a cons whose key differs. -/
theorem PyDict.insert_cons_of_ne (a : ℤ × ℚ) (m : PyDict ℤ ℚ) (k : ℤ) (v : ℚ)
    (h : k ≠ a.1) :
    PyDict.insert (a :: m) k v = a :: PyDict.insert m k v := by
  have hc : PyDict.containsKey (a :: m) k = PyDict.containsKey m k := by
    have h1 : a.1 ≠ k := fun he => h he.symm
    simp [PyDict.containsKey, PyDict.lookup, h1]
  unfold PyDict.insert
  rw [hc]
  by_cases hm : PyDict.containsKey m k
  · rw [if_pos hm, if_pos hm]
    have h1 : a.1 ≠ k := fun he => h he.symm
    simp [PyDict.modify, h1]
  · rw [if_neg hm, if_neg hm, List.cons_append]

/-- The final fold commutes with a cons whose key is absent from the folded
dict. -/
theorem foldl_insertPairs_cons (t : PyDict ℤ (List ℚ)) (f : ℤ × List ℚ → ℚ)
    (a : ℤ × ℚ) (m0 : PyDict ℤ ℚ) (h : ∀ kd ∈ t, kd.1 ≠ a.1) :
    t.foldl (fun m kd => PyDict.insert m kd.1 (f kd)) (a :: m0)
      = a :: t.foldl (fun m kd => PyDict.insert m kd.1 (f kd)) m0 := by
  induction t generalizing m0 with
  | nil => rfl
  | cons b t ih =>
    simp only [List.foldl_cons]
    rw [PyDict.insert_cons_of_ne a m0 b.1 (f b) (h b (List.mem_cons_self _ _))]
    exact ih _ (fun kd hm => h kd (List.mem_cons_of_mem _ hm))

/-- Folding the final per-key stores into an empty `self._mi_dict` appends
the entries in the order of the folded dict. -/
theorem foldl_insertPairs_nil (dd : PyDict ℤ (List ℚ)) (f : ℤ × List ℚ → ℚ)
    (hnd : (PyDict.keys dd).Nodup) :
    dd.foldl (fun m kd => PyDict.insert m kd.1 (f kd)) ([] : PyDict ℤ ℚ)
      = dd.map (fun kd => (kd.1, f kd)) := by
  induction dd with
  | nil => rfl
  | cons a t ih =>
    have hcons : PyDict.keys (a :: t) = a.1 :: PyDict.keys t := rfl
    rw [hcons] at hnd
    have h0 := List.nodup_cons.mp hnd
    have hfirst : PyDict.insert ([] : PyDict ℤ ℚ) a.1 (f a) = [(a.1, f a)] := rfl
    simp only [List.foldl_cons]
    rw [hfirst,
      foldl_insertPairs_cons t f (a.1, f a) []
        (fun kd hm he => h0.1 (he ▸ List.mem_map.mpr ⟨kd, hm, rfl⟩)),
      ih h0.2, List.map_cons]

/-- Folding the final per-key stores into a `self._mi_dict` that already has
exactly the same keys (in the same order) rewrites it to the same entries as
folding into an empty dict: the previously fitted values are all overwritten
in place. -/
theorem foldl_insertPairs_sameKeys (dd : PyDict ℤ (List ℚ)) (f : ℤ × List ℚ → ℚ)
    (m0 : PyDict ℤ ℚ) (hnd : (PyDict.keys dd).Nodup)
    (hkeys : PyDict.keys m0 = PyDict.keys dd) :
    dd.foldl (fun m kd => PyDict.insert m kd.1 (f kd)) m0
      = dd.map (fun kd => (kd.1, f kd)) := by
  induction dd generalizing m0 with
  | nil =>
    have : m0 = [] := by
      cases m0 with
      | nil => rfl
      | cons b m0t => cases hkeys
    rw [this]
    rfl
  | cons a t ih =>
    have hcons : PyDict.keys (a :: t) = a.1 :: PyDict.keys t := rfl
    rw [hcons] at hnd hkeys
    have h0 := List.nodup_cons.mp hnd
    cases m0 with
    | nil => cases hkeys
    | cons b m0t =>
      have hb : b.1 = a.1 ∧ PyDict.keys m0t = PyDict.keys t := by
        have : PyDict.keys (b :: m0t) = b.1 :: PyDict.keys m0t := rfl
        rw [this] at hkeys
        exact ⟨(List.cons.injEq _ _ _ _).mp hkeys |>.1,
          (List.cons.injEq _ _ _ _).mp hkeys |>.2⟩
      have hins : PyDict.insert (b :: m0t) a.1 (f a) = (a.1, f a) :: m0t := by
        have hcontains : PyDict.containsKey (b :: m0t) a.1 = true := by
          simp [PyDict.containsKey, PyDict.lookup, hb.1]
        unfold PyDict.insert
        rw [if_pos hcontains]
        have hnone : PyDict.lookup m0t a.1 = none :=
          PyDict.lookup_eq_none_of_not_mem_keys m0t a.1 (hb.2 ▸ h0.1)
        unfold PyDict.modify
        rw [List.map_cons, if_pos hb.1]
        have := PyDict.modify_of_not_mem m0t a.1 (fun _ => f a) hnone
        unfold PyDict.modify at this
        rw [this, hb.1]
      simp only [List.foldl_cons]
      rw [hins,
        foldl_insertPairs_cons t f (a.1, f a) m0t
          (fun kd hm he => h0.1 (he ▸ List.mem_map.mpr ⟨kd, hm, rfl⟩)),
        ih m0t h0.2 hb.2, List.map_cons]

/-- Sum of the per-point terms, each duplicated `c` times. -/
theorem sum_flatMap_replicate (I : List Nat) (c : ℕ) (t : Nat → ℚ) :
    (I.flatMap (fun i => List.replicate c (t i))).sum = (c : ℚ) * (I.map t).sum := by
  induction I with
  | nil => simp
  | cons i I ih =>
    simp [List.flatMap_cons, List.sum_append, ih, List.sum_replicate, nsmul_eq_mul,
      mul_add]

/-- Length of the per-point terms, each duplicated `c` times. -/
theorem length_flatMap_replicate (I : List Nat) (c : ℕ) (t : Nat → ℚ) :
    (I.flatMap (fun i => List.replicate c (t i))).length = c * I.length := by
  induction I with
  | nil => simp
  | cons i I ih =>
    simp [List.flatMap_cons, ih, Nat.mul_succ, Nat.add_comm]

/-- Duplicating every term the same positive number of times does not change
the mean: this is why repeated entries in the configured neighborhoods list
do not corrupt the estimate. -/
theorem listMean_flatMap_replicate (I : List Nat) (c : ℕ) (t : Nat → ℚ) (hc : 0 < c) :
    listMean (I.flatMap (fun i => List.replicate c (t i))) = listMean (I.map t) := by
  unfold listMean
  rw [sum_flatMap_replicate, length_flatMap_replicate, List.length_map, Nat.cast_mul]
  exact mul_div_mul_left _ _ (by exact_mod_cast hc.ne')

/-- Membership in the first-occurrence fold. -/
theorem mem_firstOccurrences_aux (l : List ℤ) (acc : List ℤ) (k : ℤ) :
    (k ∈ l.foldl (fun acc k' => if k' ∈ acc then acc else acc ++ [k']) acc)
      ↔ (k ∈ acc ∨ k ∈ l) := by
  induction l generalizing acc with
  | nil => simp
  | cons a t ih =>
    simp only [List.foldl_cons]
    rw [ih]
    by_cases ha : a ∈ acc
    · rw [if_pos ha]
      constructor
      · rintro (h | h)
        · exact Or.inl h
        · exact Or.inr (List.mem_cons_of_mem _ h)
      · rintro (h | h)
        · exact Or.inl h
        · rcases List.mem_cons.mp h with rfl | h
          · exact Or.inl ha
          · exact Or.inr h
    · rw [if_neg ha]
      constructor
      · rintro (h | h)
        · rcases List.mem_append.mp h with h | h
          · exact Or.inl h
          · exact Or.inr (List.mem_cons.mpr (Or.inl (List.mem_singleton.mp h)))
        · exact Or.inr (List.mem_cons_of_mem _ h)
      · rintro (h | h)
        · exact Or.inl (List.mem_append.mpr (Or.inl h))
        · rcases List.mem_cons.mp h with rfl | h
          · exact Or.inl (List.mem_append.mpr (Or.inr (List.mem_singleton.mpr rfl)))
          · exact Or.inr h

/-- First occurrences of a list have the same members as the list. -/
theorem mem_firstOccurrences (l : List ℤ) (k : ℤ) :
    k ∈ firstOccurrences l ↔ k ∈ l := by
  unfold firstOccurrences
  rw [mem_firstOccurrences_aux]
  simp

/-- A min-fold is bounded by its initial value. -/
theorem foldl_min_le_init (t : List ℤ) (a : ℤ) : t.foldl min a ≤ a := by
  induction t generalizing a with
  | nil => exact le_refl a
  | cons b t ih =>
    calc t.foldl min (min a b) ≤ min a b := ih (min a b)
    _ ≤ a := min_le_left a b

/-- A min-fold is bounded by every member. -/
theorem foldl_min_le_mem (t : List ℤ) (a e : ℤ) (he : e ∈ t) : t.foldl min a ≤ e := by
  induction t generalizing a with
  | nil => cases he
  | cons b t ih =>
    rcases List.mem_cons.mp he with rfl | he
    · calc t.foldl min (min a e) ≤ min a e := foldl_min_le_init t (min a e)
      _ ≤ e := min_le_right a e
    · exact ih _ he

/-- `pyMin` is a lower bound of the members. -/
theorem pyMin_le (l : List ℤ) (e : ℤ) (he : e ∈ l) : pyMin l ≤ e := by
  cases l with
  | nil => cases he
  | cons a t =>
    rcases List.mem_cons.mp he with rfl | he
    · exact foldl_min_le_init t e
    · exact foldl_min_le_mem t a e he

/-- A common lower bound of the members bounds `pyMin` (nonempty list). -/
theorem le_pyMin (l : List ℤ) (c : ℤ) (hl : l ≠ []) (h : ∀ e ∈ l, c ≤ e) :
    c ≤ pyMin l := by
  cases l with
  | nil => exact absurd rfl hl
  | cons a t =>
    show c ≤ t.foldl min a
    clear hl
    induction t generalizing a with
    | nil => exact h a (List.mem_cons_self _ _)
    | cons b t ih =>
      show c ≤ t.foldl min (min a b)
      have hab : c ≤ min a b :=
        le_min (h a (List.mem_cons_self _ _))
          (h b (List.mem_cons_of_mem _ (List.mem_cons_self _ _)))
      exact ih (min a b)
        (fun e hemem => by
          rcases List.mem_cons.mp hemem with rfl | hm
          · exact hab
          · exact h e (List.mem_cons_of_mem _ (List.mem_cons_of_mem _ hm)))

/-- What the final loop of `fit` stores at a requested neighborhood `k`:
exactly the direct formula `miEstimate` (the duplicated appends caused by a
repeated neighborhood cancel in the mean). -/
theorem fitMiDict_lookup (digamma : ℤ → ℚ) (dx dy : Point → Point → ℚ)
    (x y : Cloud) (nbhds : List ℤ) (mi0 : PyDict ℤ ℚ) (k : ℤ) (hk : k ∈ nbhds) :
    (fitMiDict digamma dx dy x y nbhds mi0).lookup k
      = some (miEstimate digamma dx dy x y k) := by
  simp only [fitMiDict]
  rw [lookup_foldl_insertPairs (digammasDict digamma dx dy x y nbhds)
    (fun kd => ratMax 0 (digamma kd.1 - listMean kd.2 + digamma (x.length : ℤ))) mi0 k
    ((List.range x.length).flatMap
      (fun i => List.replicate (nbhds.count k) (digammasPerPoint digamma dx dy x y i k)))
    (digammasDict_keys_nodup digamma dx dy x y nbhds)
    (digammasDict_lookup digamma dx dy x y nbhds k hk)]
  simp only [miEstimate]
  rw [listMean_flatMap_replicate (List.range x.length) (nbhds.count k)
    (fun i => digammasPerPoint digamma dx dy x y i k) (List.count_pos_iff.mpr hk)]

/-- Full entrywise characterization of the fitted `self._mi_dict`, for any
prior dict reachable on an instance: either empty (freshly constructed) or
keyed exactly by the first occurrences of the configured neighborhoods (a
previous successful `fit`). -/
theorem fitMiDict_entries (digamma : ℤ → ℚ) (dx dy : Point → Point → ℚ)
    (x y : Cloud) (nbhds : List ℤ) (mi0 : PyDict ℤ ℚ)
    (h : mi0 = [] ∨ PyDict.keys mi0 = firstOccurrences nbhds) :
    fitMiDict digamma dx dy x y nbhds mi0
      = (firstOccurrences nbhds).map
          (fun k => (k, miEstimate digamma dx dy x y k)) := by
  have hnd := digammasDict_keys_nodup digamma dx dy x y nbhds
  have hkeys := digammasDict_keys digamma dx dy x y nbhds
  have hmapped :
      (digammasDict digamma dx dy x y nbhds).map
          (fun kd => (kd.1, ratMax 0 (digamma kd.1 - listMean kd.2 + digamma (x.length : ℤ))))
        = (firstOccurrences nbhds).map
            (fun k => (k, miEstimate digamma dx dy x y k)) := by
    rw [← hkeys]
    unfold PyDict.keys
    rw [List.map_map]
    apply List.map_congr_left
    intro kd hkd
    have hk1 : kd.1 ∈ nbhds := by
      have : kd.1 ∈ PyDict.keys (digammasDict digamma dx dy x y nbhds) :=
        List.mem_map.mpr ⟨kd, hkd, rfl⟩
      rw [hkeys, mem_firstOccurrences] at this
      exact this
    have hlk := PyDict.lookup_of_mem _ kd hnd hkd
    rw [digammasDict_lookup digamma dx dy x y nbhds kd.1 hk1] at hlk
    have hval := Option.some.inj hlk
    show (kd.1, ratMax 0 (digamma kd.1 - listMean kd.2 + digamma (x.length : ℤ)))
      = (kd.1, miEstimate digamma dx dy x y kd.1)
    simp only [miEstimate]
    rw [← hval,
      listMean_flatMap_replicate (List.range x.length) (nbhds.count kd.1)
        (fun i => digammasPerPoint digamma dx dy x y i kd.1)
        (List.count_pos_iff.mpr hk1)]
  rcases h with h | h
  · subst h
    simp only [fitMiDict]
    rw [foldl_insertPairs_nil _ _ hnd]
    exact hmapped
  · simp only [fitMiDict]
    rw [foldl_insertPairs_sameKeys _ _ mi0 hnd (by rw [h, hkeys])]
    exact hmapped

/-- On a valid input, `fit` performs no raise and replaces the state by the
standardized-data fit with the fitted flag set. -/
theorem fit_success_state (digamma : ℤ → ℚ) (dx dy : Point → Point → ℚ)
    (scaler : Cloud → Cloud) (self : KSGEnsembleFirstEstimator) (x y : Cloud)
    (hlen : x.length = y.length)
    (hmax : pyMax self.neighborhoods < (x.length : ℤ)) :
    self.fit digamma dx dy scaler x y
      = ({ self with
            mi_dict := fitMiDict digamma dx dy
              (if self.standardize then scaler x else x)
              (if self.standardize then scaler y else y)
              self.neighborhoods self.mi_dict,
            fitted := true }, none) := by
  unfold KSGEnsembleFirstEstimator.fit
  rw [if_neg (fun h => h hlen), if_neg (not_le.mpr hmax)]

/-- Reading a freshly allocated cell yields the stored value. -/
theorem Heap.read_alloc_self {α : Type} [Inhabited α] (h : Heap α) (a : α) :
    (h.alloc a).1.read (h.alloc a).2 = a := by
  show (h ++ [a]).getD h.length default = a
  rw [List.getD_append_right _ _ _ _ (le_refl _)]
  simp

/-- Allocation does not disturb existing cells. -/
theorem Heap.read_alloc_lt {α : Type} [Inhabited α] (h : Heap α) (a : α) (r : Nat)
    (hr : r < h.length) : (h.alloc a).1.read r = h.read r := by
  show (h ++ [a]).getD r default = h.getD r default
  exact List.getD_append _ _ _ _ hr

/-- Writing one cell does not disturb a different cell. -/
theorem Heap.read_write_ne {α : Type} [Inhabited α] (h : Heap α) (r r2 : Nat) (a : α)
    (hne : r ≠ r2) : (h.write r a).read r2 = h.read r2 := by
  show (h.set r a).getD r2 default = h.getD r2 default
  simp [List.getD, List.getElem?_set_ne hne]

/-- Allocation grows the heap by one cell. -/
theorem Heap.length_alloc {α : Type} (h : Heap α) (a : α) :
    (h.alloc a).1.length = h.length + 1 := by
  simp [Heap.alloc]

/-- Reads of pre-existing cells are unchanged by the two `np.array` copies
performed on entry to `fit`. -/
theorem heap_two_alloc_read {α : Type} [Inhabited α] (ah : Heap α) (x0 y0 : α)
    (r : Nat) (hr : r < ah.length) :
    ((ah.alloc x0).1.alloc y0).1.read r = ah.read r := by
  rw [Heap.read_alloc_lt _ _ _ (by rw [Heap.length_alloc]; omega),
    Heap.read_alloc_lt _ _ _ hr]

/-- Reads of pre-existing cells are unchanged by the two `np.array` copies
followed by the two in-place standardizations of those copies. -/
theorem heap_two_alloc_two_write_read {α : Type} [Inhabited α] (ah : Heap α)
    (x0 y0 u v : α) (r : Nat) (hr : r < ah.length) :
    ((((ah.alloc x0).1.alloc y0).1.write (ah.alloc x0).2 u).write
        ((ah.alloc x0).1.alloc y0).2 v).read r = ah.read r := by
  have h1 : (ah.alloc x0).2 = ah.length := rfl
  have h2 : ((ah.alloc x0).1.alloc y0).2 = ah.length + 1 := by
    show (ah.alloc x0).1.length = ah.length + 1
    exact Heap.length_alloc ah x0
  rw [Heap.read_write_ne _ _ _ _ (by rw [h2]; omega),
    Heap.read_write_ne _ _ _ _ (by rw [h1]; omega)]
  exact heap_two_alloc_read ah x0 y0 r hr

/-- The reference-semantics `fit` never changes a pre-existing array cell,
whatever branch it takes. -/
theorem fitRef_heap_read (digamma : ℤ → ℚ) (dx dy : Point → Point → ℚ)
    (scaler : Cloud → Cloud) (ah : Heap Cloud) (dh : Heap (PyDict ℤ ℚ))
    (self : KSGEnsembleFirstEstimatorRef) (xref yref : Nat) (r : Nat)
    (hr : r < ah.length) :
    (KSGEnsembleFirstEstimatorRef.fit digamma dx dy scaler ah dh self xref yref).1.read r
      = ah.read r := by
  simp only [KSGEnsembleFirstEstimatorRef.fit]
  by_cases h1 : (Heap.read ah xref).length ≠ (Heap.read ah yref).length
  · rw [if_pos h1]
    exact heap_two_alloc_read ah _ _ r hr
  · rw [if_neg h1]
    by_cases h2 : ((Heap.read ah xref).length : ℤ) ≤ pyMax self.neighborhoods
    · rw [if_pos h2]
      exact heap_two_alloc_read ah _ _ r hr
    · rw [if_neg h2]
      by_cases hs : self.standardize = true
      · rw [if_pos hs]
        exact heap_two_alloc_two_write_read ah _ _ _ _ r hr
      · rw [if_neg hs]
        exact heap_two_alloc_read ah _ _ r hr

/-- The Chebyshev estimator's `fit` never changes a pre-existing array cell
either. -/
theorem chebFit_heap_read (scaler : Cloud → Cloud) (ah : Heap Cloud)
    (self : KSGEnsembleChebyshevEstimator) (xref yref : Nat) (r : Nat)
    (hr : r < ah.length) :
    (self.fit scaler ah xref yref).1.read r = ah.read r := by
  simp only [KSGEnsembleChebyshevEstimator.fit]
  by_cases h1 : (Heap.read ah xref).length ≠ (Heap.read ah yref).length
  · rw [if_pos h1]
    exact heap_two_alloc_read ah _ _ r hr
  · rw [if_neg h1]
    by_cases hs : self.standardize = true
    · rw [if_pos hs]
      exact heap_two_alloc_two_write_read ah _ _ _ _ r hr
    · rw [if_neg hs]
      exact heap_two_alloc_read ah _ _ r hr

/-- C1 (amended): for equal-length clouds with `n = len(X)` above every
configured neighborhood, after `KSGEnsembleFirstEstimator.fit(X, Y)` the
fitted mapping at each configured neighborhood `k` equals
`max(0, digamma(k) - mean over i of [digamma(n_x(i,k)+1) + digamma(n_y(i,k)+1)] + digamma(n))`
computed on the matrices the loop sees (the standardized ones when
standardization is enabled), where — as the code computes the counts —
`n_x(i,k)` is ONE LESS than the number of points (now including `i` itself)
whose `distances_x` entry is strictly below the joint `k`-th-neighbour
radius, and `n_y` analogously; this count coincides with the claim's count
over points other than `i` exactly when that radius is positive. -/
theorem claim_C1 (digamma : ℤ → ℚ) (dx dy : Point → Point → ℚ)
    (scaler : Cloud → Cloud) (self : KSGEnsembleFirstEstimator) (x y : Cloud)
    (hlen : x.length = y.length)
    (hmax : pyMax self.neighborhoods < (x.length : ℤ))
    (k : ℤ) (hk : k ∈ self.neighborhoods) :
    ((self.fit digamma dx dy scaler x y).1.mi_dict).lookup k
      = some (miEstimate digamma dx dy
          (if self.standardize then scaler x else x)
          (if self.standardize then scaler y else y) k) := by
  rw [fit_success_state digamma dx dy scaler self x y hlen hmax]
  exact fitMiDict_lookup digamma dx dy _ _ self.neighborhoods self.mi_dict k hk

/-- C2: `fit` raises `MismatchedLengths` whenever the input lengths differ;
with equal lengths it raises `InsufficientSamples` exactly when the largest
configured neighborhood reaches the sample count; and it raises nothing when
both preconditions hold. -/
theorem claim_C2 (digamma : ℤ → ℚ) (dx dy : Point → Point → ℚ)
    (scaler : Cloud → Cloud) (self : KSGEnsembleFirstEstimator) (x y : Cloud) :
    (x.length ≠ y.length →
      (self.fit digamma dx dy scaler x y).2 = some Err.mismatchedLengths) ∧
    (x.length = y.length →
      ((self.fit digamma dx dy scaler x y).2 = some Err.insufficientSamples
        ↔ (x.length : ℤ) ≤ pyMax self.neighborhoods)) ∧
    (x.length = y.length → pyMax self.neighborhoods < (x.length : ℤ) →
      (self.fit digamma dx dy scaler x y).2 = none) := by
  refine ⟨?_, ?_, ?_⟩
  · intro h
    simp only [KSGEnsembleFirstEstimator.fit]
    rw [if_pos h]
  · intro h
    simp only [KSGEnsembleFirstEstimator.fit]
    rw [if_neg (fun hne => hne h)]
    by_cases hm : (x.length : ℤ) ≤ pyMax self.neighborhoods
    · rw [if_pos hm]
      simp [hm]
    · rw [if_neg hm]
      simp [hm]
  · intro h hmax
    simp only [KSGEnsembleFirstEstimator.fit]
    rw [if_neg (fun hne => hne h), if_neg (not_le.mpr hmax)]

/-- C3: the neighborhood validator rejects the empty sequence, rejects any
sequence with an element below 1, and otherwise returns the input sequence
itself (in particular order-preserving). -/
theorem claim_C3 (neighborhoods : List ℤ) :
    (neighborhoods = [] →
      castAndCheckNeighborhoods neighborhoods = .error Err.invalidConfiguration) ∧
    ((∃ k ∈ neighborhoods, k < 1) →
      castAndCheckNeighborhoods neighborhoods = .error Err.invalidConfiguration) ∧
    (neighborhoods ≠ [] → (∀ k ∈ neighborhoods, 1 ≤ k) →
      castAndCheckNeighborhoods neighborhoods = .ok neighborhoods) := by
  refine ⟨?_, ?_, ?_⟩
  · rintro rfl
    rfl
  · rintro ⟨k, hk, hk1⟩
    unfold castAndCheckNeighborhoods
    by_cases hlen : neighborhoods.length = 0
    · rw [if_pos hlen]
    · rw [if_neg hlen, if_pos (lt_of_le_of_lt (pyMin_le _ k hk) hk1)]
  · intro hne hall
    unfold castAndCheckNeighborhoods
    rw [if_neg (fun h0 => hne (List.length_eq_zero.mp h0)),
      if_neg (not_lt.mpr (le_pyMin neighborhoods 1 hne hall))]

/-- C6: on every valid input, the value stored in the fitted mapping at each
configured neighborhood is nonnegative (it is clamped by `max(0, ...)`). -/
theorem claim_C6 (digamma : ℤ → ℚ) (dx dy : Point → Point → ℚ)
    (scaler : Cloud → Cloud) (self : KSGEnsembleFirstEstimator) (x y : Cloud)
    (hlen : x.length = y.length)
    (hmax : pyMax self.neighborhoods < (x.length : ℤ))
    (k : ℤ) (hk : k ∈ self.neighborhoods) :
    ∃ v, ((self.fit digamma dx dy scaler x y).1.mi_dict).lookup k = some v ∧ 0 ≤ v := by
  rw [fit_success_state digamma dx dy scaler self x y hlen hmax]
  refine ⟨_, fitMiDict_lookup digamma dx dy _ _ self.neighborhoods self.mi_dict k hk, ?_⟩
  unfold miEstimate
  exact le_ratMax_left 0 _

/-- C9: `fit` is atomic: when it raises, the estimator state (fitted flag
and mapping) is exactly as before the call; when it returns normally, the
mapping has an entry for every configured neighborhood. -/
theorem claim_C9 (digamma : ℤ → ℚ) (dx dy : Point → Point → ℚ)
    (scaler : Cloud → Cloud) (self : KSGEnsembleFirstEstimator) (x y : Cloud) :
    (∀ e : Err, (self.fit digamma dx dy scaler x y).2 = some e →
      (self.fit digamma dx dy scaler x y).1 = self) ∧
    ((self.fit digamma dx dy scaler x y).2 = none →
      ∀ k ∈ self.neighborhoods,
        ∃ v, ((self.fit digamma dx dy scaler x y).1.mi_dict).lookup k = some v) := by
  constructor
  · intro e he
    simp only [KSGEnsembleFirstEstimator.fit] at he ⊢
    by_cases h1 : x.length ≠ y.length
    · rw [if_pos h1]
    · rw [if_neg h1] at he ⊢
      by_cases h2 : (x.length : ℤ) ≤ pyMax self.neighborhoods
      · rw [if_pos h2]
      · rw [if_neg h2] at he
        simp at he
  · intro hnone k hk
    have hcases : x.length = y.length ∧ pyMax self.neighborhoods < (x.length : ℤ) := by
      by_cases h1 : x.length ≠ y.length
      · simp only [KSGEnsembleFirstEstimator.fit] at hnone
        rw [if_pos h1] at hnone
        simp at hnone
      · by_cases h2 : (x.length : ℤ) ≤ pyMax self.neighborhoods
        · simp only [KSGEnsembleFirstEstimator.fit] at hnone
          rw [if_neg h1, if_pos h2] at hnone
          simp at hnone
        · exact ⟨not_ne_iff.mp h1, not_le.mp h2⟩
    rw [fit_success_state digamma dx dy scaler self x y hcases.1 hcases.2]
    exact ⟨_, fitMiDict_lookup digamma dx dy _ _ self.neighborhoods self.mi_dict k hk⟩

/-- C7: `estimate` refits and returns the arithmetic mean of the values of
the resulting fitted mapping; on every instance state reachable on a
configured estimator (never fitted, or fitted with the same neighborhoods)
the resulting values are the canonical per-first-occurrence estimates, so
the result is independent of any prior fitted state. -/
theorem claim_C7 (digamma : ℤ → ℚ) (dx dy : Point → Point → ℚ)
    (scaler : Cloud → Cloud) (self : KSGEnsembleFirstEstimator) (x y : Cloud)
    (hlen : x.length = y.length)
    (hmax : pyMax self.neighborhoods < (x.length : ℤ))
    (hstate : self.mi_dict = []
      ∨ PyDict.keys self.mi_dict = firstOccurrences self.neighborhoods) :
    (self.estimate digamma dx dy scaler x y).2
        = .ok (listMean
            (PyDict.values (self.fit digamma dx dy scaler x y).1.mi_dict)) ∧
    PyDict.values (self.fit digamma dx dy scaler x y).1.mi_dict
        = (firstOccurrences self.neighborhoods).map
            (fun k => miEstimate digamma dx dy
              (if self.standardize then scaler x else x)
              (if self.standardize then scaler y else y) k) := by
  have hfit := fit_success_state digamma dx dy scaler self x y hlen hmax
  constructor
  · simp only [KSGEnsembleFirstEstimator.estimate]
    rw [hfit]
    rfl
  · rw [hfit]
    show PyDict.values (fitMiDict digamma dx dy _ _ self.neighborhoods self.mi_dict) = _
    rw [fitMiDict_entries digamma dx dy _ _ self.neighborhoods self.mi_dict hstate]
    unfold PyDict.values
    rw [List.map_map]
    rfl

/-- C4 (amended): the Chebyshev estimator's `fit` fails with
`MismatchedLengths` when the input lengths differ, and otherwise always
succeeds: unlike the brute-force estimator, it performs no
`InsufficientSamples` check and never raises that error. -/
theorem claim_C4 (scaler : Cloud → Cloud) (ah : Heap Cloud)
    (self : KSGEnsembleChebyshevEstimator) (xref yref : Nat) :
    ((ah.read xref).length ≠ (ah.read yref).length →
      (self.fit scaler ah xref yref).2.2 = some Err.mismatchedLengths) ∧
    ((ah.read xref).length = (ah.read yref).length →
      (self.fit scaler ah xref yref).2.2 = none) ∧
    (∀ e : Err, (self.fit scaler ah xref yref).2.2 = some e →
      e ≠ Err.insufficientSamples) := by
  refine ⟨?_, ?_, ?_⟩
  · intro h
    simp only [KSGEnsembleChebyshevEstimator.fit]
    rw [if_pos h]
  · intro h
    simp only [KSGEnsembleChebyshevEstimator.fit]
    rw [if_neg (fun hne => hne h)]
  · intro e he
    simp only [KSGEnsembleChebyshevEstimator.fit] at he
    by_cases h1 : (ah.read xref).length ≠ (ah.read yref).length
    · rw [if_pos h1] at he
      simp at he
      rw [← he]
      decide
    · rw [if_neg h1] at he
      simp at he

/-- C5: the Chebyshev estimator's `predict` raises `Unimplemented` for every
call whose neighborhoods argument is `None` or a nonempty all-positive
sequence, fitted or not; consequently `estimate` never returns a value on
any input where its `fit` succeeds. -/
theorem claim_C5 :
    (∀ self : KSGEnsembleChebyshevEstimator,
      self.predict none = .error Err.unimplemented) ∧
    (∀ (self : KSGEnsembleChebyshevEstimator) (s : List ℤ),
      s ≠ [] → (∀ k ∈ s, 1 ≤ k) →
      self.predict (some s) = .error Err.unimplemented) ∧
    (∀ (scaler : Cloud → Cloud) (ah : Heap Cloud)
        (self : KSGEnsembleChebyshevEstimator) (xref yref : Nat),
      (self.fit scaler ah xref yref).2.2 = none →
      (self.estimate scaler ah xref yref).2.2 = .error Err.unimplemented) := by
  refine ⟨fun self => rfl, ?_, ?_⟩
  · intro self s hne hall
    have hok : castAndCheckNeighborhoods s = .ok s := by
      unfold castAndCheckNeighborhoods
      rw [if_neg (fun h0 => hne (List.length_eq_zero.mp h0)),
        if_neg (not_lt.mpr (le_pyMin s 1 hne hall))]
    simp only [KSGEnsembleChebyshevEstimator.predict]
    rw [hok]
  · intro scaler ah self xref yref hfit
    simp only [KSGEnsembleChebyshevEstimator.estimate]
    rw [hfit]
    rfl

/-- When the instance is fitted, `get_predictions` allocates a copy of the
dict behind `self._mi_dict` and returns its address. -/
theorem get_predictions_fitted (dh : Heap (PyDict ℤ ℚ))
    (self : KSGEnsembleFirstEstimatorRef) (h : self.fitted = true) :
    KSGEnsembleFirstEstimatorRef.get_predictions dh self
      = ((dh.alloc (dh.read self.mi_ref)).1, .ok (dh.alloc (dh.read self.mi_ref)).2) := by
  simp only [KSGEnsembleFirstEstimatorRef.get_predictions]
  rw [if_neg (by rw [h]; simp)]

/-- C8: `get_predictions` raises `NotFittedError` exactly while no `fit` has
succeeded on the instance (freshly constructed instances are unfitted, a
raising `fit` changes nothing, a successful `fit` sets the flag), and when
fitted it returns a freshly allocated copy of the fitted mapping, so
overwriting the returned dict does not change what a later call returns. -/
theorem claim_C8 :
    (∀ (dh : Heap (PyDict ℤ ℚ)) (nbhds : List ℤ) (st : Bool)
        (dh' : Heap (PyDict ℤ ℚ)) (obj : KSGEnsembleFirstEstimatorRef),
      KSGEnsembleFirstEstimatorRef.new dh nbhds st = (dh', .ok obj) →
      obj.fitted = false) ∧
    (∀ (dh : Heap (PyDict ℤ ℚ)) (self : KSGEnsembleFirstEstimatorRef),
      self.fitted = false →
      (KSGEnsembleFirstEstimatorRef.get_predictions dh self).2
        = .error Err.notFitted) ∧
    (∀ (digamma : ℤ → ℚ) (dx dy : Point → Point → ℚ) (scaler : Cloud → Cloud)
        (ah : Heap Cloud) (dh : Heap (PyDict ℤ ℚ))
        (self : KSGEnsembleFirstEstimatorRef) (xref yref : Nat) (e : Err),
      (KSGEnsembleFirstEstimatorRef.fit digamma dx dy scaler ah dh self xref yref).2.2.2
          = some e →
      (KSGEnsembleFirstEstimatorRef.fit digamma dx dy scaler ah dh self xref yref).2.2.1
          = self ∧
      (KSGEnsembleFirstEstimatorRef.fit digamma dx dy scaler ah dh self xref yref).2.1
          = dh) ∧
    (∀ (digamma : ℤ → ℚ) (dx dy : Point → Point → ℚ) (scaler : Cloud → Cloud)
        (ah : Heap Cloud) (dh : Heap (PyDict ℤ ℚ))
        (self : KSGEnsembleFirstEstimatorRef) (xref yref : Nat),
      (KSGEnsembleFirstEstimatorRef.fit digamma dx dy scaler ah dh self xref yref).2.2.2
          = none →
      (KSGEnsembleFirstEstimatorRef.fit digamma dx dy scaler ah dh self xref yref).2.2.1.fitted
          = true) ∧
    (∀ (dh : Heap (PyDict ℤ ℚ)) (self : KSGEnsembleFirstEstimatorRef)
        (d' : PyDict ℤ ℚ),
      self.fitted = true → self.mi_ref < dh.length →
      ∃ dh1 r,
        KSGEnsembleFirstEstimatorRef.get_predictions dh self = (dh1, .ok r) ∧
        Heap.read dh1 r = Heap.read dh self.mi_ref ∧
        ∃ dh2 r2,
          KSGEnsembleFirstEstimatorRef.get_predictions (Heap.write dh1 r d') self
              = (dh2, .ok r2) ∧
          Heap.read dh2 r2 = Heap.read dh self.mi_ref) := by
  refine ⟨?_, ?_, ?_, ?_, ?_⟩
  · intro dh nbhds st dh' obj hnew
    unfold KSGEnsembleFirstEstimatorRef.new at hnew
    split at hnew
    · simp at hnew
    · simp only [Prod.mk.injEq] at hnew
      have h2 := hnew.2
      simp only [Except.ok.injEq] at h2
      rw [← h2]
  · intro dh self h
    simp only [KSGEnsembleFirstEstimatorRef.get_predictions]
    rw [if_pos h]
  · intro digamma dx dy scaler ah dh self xref yref e he
    simp only [KSGEnsembleFirstEstimatorRef.fit] at he ⊢
    by_cases h1 : (Heap.read ah xref).length ≠ (Heap.read ah yref).length
    · rw [if_pos h1]
      exact ⟨rfl, rfl⟩
    · rw [if_neg h1] at he ⊢
      by_cases h2 : ((Heap.read ah xref).length : ℤ) ≤ pyMax self.neighborhoods
      · rw [if_pos h2]
        exact ⟨rfl, rfl⟩
      · rw [if_neg h2] at he
        simp at he
  · intro digamma dx dy scaler ah dh self xref yref hnone
    simp only [KSGEnsembleFirstEstimatorRef.fit] at hnone ⊢
    by_cases h1 : (Heap.read ah xref).length ≠ (Heap.read ah yref).length
    · rw [if_pos h1] at hnone
      simp at hnone
    · rw [if_neg h1] at hnone ⊢
      by_cases h2 : ((Heap.read ah xref).length : ℤ) ≤ pyMax self.neighborhoods
      · rw [if_pos h2] at hnone
        simp at hnone
      · rw [if_neg h2]
  · intro dh self d' hfit href
    have hne : (dh.alloc (dh.read self.mi_ref)).2 ≠ self.mi_ref := by
      show dh.length ≠ self.mi_ref
      omega
    refine ⟨_, _, get_predictions_fitted dh self hfit, Heap.read_alloc_self dh _,
      _, _, get_predictions_fitted _ self hfit, ?_⟩
    rw [Heap.read_alloc_self, Heap.read_write_ne _ _ _ _ hne,
      Heap.read_alloc_lt _ _ _ href]

/-- C10: neither estimator's `fit` mutates the caller's arrays: every
pre-existing heap cell, in particular the two input arrays, reads the same
after the call, standardization included (it operates on the fresh
`np.array` copies). -/
theorem claim_C10 (digamma : ℤ → ℚ) (dx dy : Point → Point → ℚ)
    (scaler : Cloud → Cloud) (ah : Heap Cloud) (dh : Heap (PyDict ℤ ℚ))
    (self1 : KSGEnsembleFirstEstimatorRef) (self2 : KSGEnsembleChebyshevEstimator)
    (xref yref : Nat) (hx : xref < ah.length) (hy : yref < ah.length) :
    ((KSGEnsembleFirstEstimatorRef.fit digamma dx dy scaler ah dh self1 xref yref).1.read xref
        = ah.read xref ∧
      (KSGEnsembleFirstEstimatorRef.fit digamma dx dy scaler ah dh self1 xref yref).1.read yref
        = ah.read yref) ∧
    ((self2.fit scaler ah xref yref).1.read xref = ah.read xref ∧
      (self2.fit scaler ah xref yref).1.read yref = ah.read yref) :=
  ⟨⟨fitRef_heap_read digamma dx dy scaler ah dh self1 xref yref xref hx,
    fitRef_heap_read digamma dx dy scaler ah dh self1 xref yref yref hy⟩,
   ⟨chebFit_heap_read scaler ah self2 xref yref xref hx,
    chebFit_heap_read scaler ah self2 xref yref yref hy⟩⟩

section

attribute [local semireducible] Rat.add Rat.sub Rat.mul Rat.inv

/-- Witness for C1 at a concrete two-point input with distinct points. -/
theorem claim_C1_witness :
    ((KSGEnsembleFirstEstimator.fit (fun z => (z : ℚ)) chebyshevDist chebyshevDist id
        ⟨[1], false, false, []⟩ [[0], [1]] [[0], [1]]).1.mi_dict).lookup 1
      = some (miEstimate (fun z => (z : ℚ)) chebyshevDist chebyshevDist
          [[0], [1]] [[0], [1]] 1) :=
  claim_C1 (fun z => (z : ℚ)) chebyshevDist chebyshevDist id
    ⟨[1], false, false, []⟩ [[0], [1]] [[0], [1]] rfl (by decide) 1 (by decide)

/-- Counterexample to C1 as stated: on the duplicated cloud `[[0], [0]]`
(which satisfies the claim's precondition `n > max(neighborhoods)`), the
joint 1st-neighbour radius is 0, the code's count `n_x` is `-1` while the
claim's count over points other than `i` is `0`, and the fitted value
differs from the claim's formula. -/
theorem claim_C1_counterexample :
    pyMax [1] < (([[(0:ℚ)], [0]] : Cloud).length : ℤ) ∧
    ((KSGEnsembleFirstEstimator.fit (fun z => (z : ℚ)) chebyshevDist chebyshevDist id
        ⟨[1], false, false, []⟩ [[0], [0]] [[0], [0]]).1.mi_dict).lookup 1
      ≠ some (specMIEstimate (fun z => (z : ℚ)) chebyshevDist chebyshevDist
          [[0], [0]] [[0], [0]] 1) :=
  ⟨by decide, by decide⟩

/-- Witness for C2: a mismatched-length raise, an insufficient-samples
raise at `n = 10`, `k = 50`, and a silent success on a valid input. -/
theorem claim_C2_witness :
    (KSGEnsembleFirstEstimator.fit (fun z => (z : ℚ)) chebyshevDist chebyshevDist id
        ⟨[1], false, false, []⟩ [[0]] []).2 = some Err.mismatchedLengths ∧
    (KSGEnsembleFirstEstimator.fit (fun z => (z : ℚ)) chebyshevDist chebyshevDist id
        ⟨[50], false, false, []⟩ (List.replicate 10 [(0:ℚ)])
        (List.replicate 10 [(0:ℚ)])).2 = some Err.insufficientSamples ∧
    (KSGEnsembleFirstEstimator.fit (fun z => (z : ℚ)) chebyshevDist chebyshevDist id
        ⟨[1], false, false, []⟩ [[0], [1]] [[0], [1]]).2 = none :=
  ⟨(claim_C2 _ _ _ _ _ _ _).1 (by decide),
   ((claim_C2 _ _ _ _ _ _ _).2.1 (by decide)).mpr (by decide),
   (claim_C2 _ _ _ _ _ _ _).2.2 (by decide) (by decide)⟩

/-- Witness for C3: the empty list and `[0]` are rejected, `[5, 10]` is
returned unchanged. -/
theorem claim_C3_witness :
    castAndCheckNeighborhoods [] = .error Err.invalidConfiguration ∧
    castAndCheckNeighborhoods [0] = .error Err.invalidConfiguration ∧
    castAndCheckNeighborhoods [5, 10] = .ok [5, 10] :=
  ⟨(claim_C3 []).1 rfl,
   (claim_C3 [0]).2.1 ⟨0, by decide⟩,
   (claim_C3 [5, 10]).2.2 (by decide) (by decide)⟩

/-- Witness for C4 (amended): the Chebyshev `fit` raises on mismatched
lengths and succeeds on `n = 10` with `k = 50`. -/
theorem claim_C4_witness :
    ((⟨[5, 10], false, none⟩ : KSGEnsembleChebyshevEstimator).fit id
        [[[(0:ℚ)]], [[0], [1]]] 0 1).2.2 = some Err.mismatchedLengths ∧
    ((⟨[50], false, none⟩ : KSGEnsembleChebyshevEstimator).fit id
        [List.replicate 10 [(0:ℚ)], List.replicate 10 [(0:ℚ)]] 0 1).2.2 = none :=
  ⟨(claim_C4 _ _ _ _ _).1 (by decide), (claim_C4 _ _ _ _ _).2.1 (by decide)⟩

/-- Counterexample to C4 as stated: with `10` samples and largest
neighborhood `50` (so the claim's `max(neighborhoods) >= len(X)` condition
holds), the Chebyshev `fit` raises nothing instead of
`InsufficientSamples`. -/
theorem claim_C4_counterexample :
    ((List.replicate 10 [(0:ℚ)] : Cloud).length : ℤ) ≤ pyMax [50] ∧
    ((⟨[50], false, none⟩ : KSGEnsembleChebyshevEstimator).fit id
        [List.replicate 10 [(0:ℚ)], List.replicate 10 [(0:ℚ)]] 0 1).2.2 = none :=
  ⟨by decide, by decide⟩

/-- Witness for C5: `predict` raises `Unimplemented` for the default and for
a valid explicit neighborhoods list, and `estimate` on an input whose `fit`
succeeds also ends in `Unimplemented`. -/
theorem claim_C5_witness :
    (⟨[5, 10], true, none⟩ : KSGEnsembleChebyshevEstimator).predict none
        = .error Err.unimplemented ∧
    (⟨[5, 10], true, none⟩ : KSGEnsembleChebyshevEstimator).predict (some [3])
        = .error Err.unimplemented ∧
    ((⟨[5, 10], false, none⟩ : KSGEnsembleChebyshevEstimator).estimate id
        [[[(0:ℚ)], [1]], [[0], [1]]] 0 1).2.2 = .error Err.unimplemented :=
  ⟨claim_C5.1 _, claim_C5.2.1 _ [3] (by decide) (by decide),
   claim_C5.2.2 id _ _ 0 1 (by decide)⟩

/-- Witness for C6 at a concrete valid input. -/
theorem claim_C6_witness :
    ∃ v, ((KSGEnsembleFirstEstimator.fit (fun z => (z : ℚ)) chebyshevDist chebyshevDist id
        ⟨[1], false, false, []⟩ [[0], [1]] [[0], [1]]).1.mi_dict).lookup 1
      = some v ∧ 0 ≤ v :=
  claim_C6 _ _ _ _ _ _ _ rfl (by decide) 1 (by decide)

/-- Witness for C7 at a concrete valid input on a freshly constructed
estimator. -/
theorem claim_C7_witness :
    (KSGEnsembleFirstEstimator.estimate (fun z => (z : ℚ)) chebyshevDist chebyshevDist id
        ⟨[1], false, false, []⟩ [[0], [1]] [[0], [1]]).2
      = .ok (listMean (PyDict.values
          (KSGEnsembleFirstEstimator.fit (fun z => (z : ℚ)) chebyshevDist chebyshevDist id
            ⟨[1], false, false, []⟩ [[0], [1]] [[0], [1]]).1.mi_dict)) ∧
    PyDict.values (KSGEnsembleFirstEstimator.fit (fun z => (z : ℚ)) chebyshevDist
        chebyshevDist id ⟨[1], false, false, []⟩ [[0], [1]] [[0], [1]]).1.mi_dict
      = (firstOccurrences [1]).map
          (fun k => miEstimate (fun z => (z : ℚ)) chebyshevDist chebyshevDist
            [[0], [1]] [[0], [1]] k) :=
  claim_C7 _ _ _ _ _ _ _ rfl (by decide) (Or.inl rfl)

/-- Witness for C8: each part of the contract at concrete heaps and
instances. -/
theorem claim_C8_witness :
    ((⟨[5], true, false, 0⟩ : KSGEnsembleFirstEstimatorRef).fitted = false) ∧
    ((KSGEnsembleFirstEstimatorRef.get_predictions [[]]
        ⟨[5], true, false, 0⟩).2 = .error Err.notFitted) ∧
    ((KSGEnsembleFirstEstimatorRef.fit (fun z => (z : ℚ)) chebyshevDist chebyshevDist id
        [[[(0:ℚ)]], [[0], [1]]] [[]] ⟨[1], false, false, 0⟩ 0 1).2.2.1
          = ⟨[1], false, false, 0⟩ ∧
      (KSGEnsembleFirstEstimatorRef.fit (fun z => (z : ℚ)) chebyshevDist chebyshevDist id
        [[[(0:ℚ)]], [[0], [1]]] [[]] ⟨[1], false, false, 0⟩ 0 1).2.1 = [[]]) ∧
    ((KSGEnsembleFirstEstimatorRef.fit (fun z => (z : ℚ)) chebyshevDist chebyshevDist id
        [[[(0:ℚ)], [1]], [[0], [1]]] [[]] ⟨[1], false, false, 0⟩ 0 1).2.2.1.fitted
          = true) ∧
    (∃ dh1 r,
      KSGEnsembleFirstEstimatorRef.get_predictions [[(1, (5:ℚ))]] ⟨[1], false, true, 0⟩
          = (dh1, .ok r) ∧
      Heap.read dh1 r = Heap.read [[(1, (5:ℚ))]] 0 ∧
      ∃ dh2 r2,
        KSGEnsembleFirstEstimatorRef.get_predictions (Heap.write dh1 r [])
            ⟨[1], false, true, 0⟩ = (dh2, .ok r2) ∧
        Heap.read dh2 r2 = Heap.read [[(1, (5:ℚ))]] 0) :=
  ⟨claim_C8.1 [] [5] true [[]] ⟨[5], true, false, 0⟩ rfl,
   claim_C8.2.1 [[]] ⟨[5], true, false, 0⟩ rfl,
   claim_C8.2.2.1 _ _ _ _ _ _ _ 0 1 Err.mismatchedLengths (by decide),
   claim_C8.2.2.2.1 _ _ _ _ _ _ _ 0 1 (by decide),
   claim_C8.2.2.2.2 [[(1, (5:ℚ))]] ⟨[1], false, true, 0⟩ [] rfl (by decide)⟩

/-- Witness for C9: a raising call leaves the state untouched; a successful
call stores an entry for the configured neighborhood. -/
theorem claim_C9_witness :
    ((KSGEnsembleFirstEstimator.fit (fun z => (z : ℚ)) chebyshevDist chebyshevDist id
        ⟨[1], false, false, []⟩ [[0]] []).1 = ⟨[1], false, false, []⟩) ∧
    (∃ v, ((KSGEnsembleFirstEstimator.fit (fun z => (z : ℚ)) chebyshevDist chebyshevDist id
        ⟨[1], false, false, []⟩ [[0], [1]] [[0], [1]]).1.mi_dict).lookup 1 = some v) :=
  ⟨(claim_C9 _ _ _ _ _ _ _).1 Err.mismatchedLengths (by decide),
   (claim_C9 _ _ _ _ _ _ _).2 (by decide) 1 (by decide)⟩

/-- Witness for C10 at a concrete two-array heap. -/
theorem claim_C10_witness :
    ((KSGEnsembleFirstEstimatorRef.fit (fun z => (z : ℚ)) chebyshevDist chebyshevDist id
        [[[(0:ℚ)], [1]], [[0], [2]]] [[]] ⟨[1], true, false, 0⟩ 0 1).1.read 0
      = [[(0:ℚ)], [1]] ∧
      (KSGEnsembleFirstEstimatorRef.fit (fun z => (z : ℚ)) chebyshevDist chebyshevDist id
        [[[(0:ℚ)], [1]], [[0], [2]]] [[]] ⟨[1], true, false, 0⟩ 0 1).1.read 1
      = [[(0:ℚ)], [2]]) ∧
    (((⟨[5, 10], true, none⟩ : KSGEnsembleChebyshevEstimator).fit id
        [[[(0:ℚ)], [1]], [[0], [2]]] 0 1).1.read 0 = [[(0:ℚ)], [1]] ∧
      ((⟨[5, 10], true, none⟩ : KSGEnsembleChebyshevEstimator).fit id
        [[[(0:ℚ)], [1]], [[0], [2]]] 0 1).1.read 1 = [[(0:ℚ)], [2]]) :=
  claim_C10 _ _ _ _ _ _ _ _ 0 1 (by decide) (by decide)

end
